import Mathlib

/-!
Verification development for the `tell` gateway (src/src/main.rs): a shallow
embedding of its stream-normalization and routing core — provider selection,
OpenAI request-body construction, and the two SSE-to-AI-SDK stream
normalizers with their tool-call accumulator state — together with theorems
settling the specification's claims about that core.

Conventions of the embedding:
* Rust `String`/`&str` values are Lean `String`s; byte-level processing is
  done on `String.data : List Char` (all inputs exercised here are ASCII, so
  chars coincide with bytes).
* `serde_json::Value` is modelled by `Json` below.  serde_json's default
  `Value::Object` is a `BTreeMap<String, Value>`, so object fields are kept
  sorted by key (lexicographic on code points, which on ASCII agrees with
  Rust's byte-wise `String` ordering) and duplicate insertion replaces.
* `serde_json::from_str::<Value>` is modelled by `parseJson`, a fuel-based
  recursive-descent parser covering the JSON subset exchanged by this
  gateway: object / array / string (with the simple escapes) / integer
  numbers / literals.  Fractional or exponent number forms and `\u` escapes
  do not occur in any stream considered here.
* `serde_json::to_string` is modelled by `Json.render` (compact output,
  object fields in BTreeMap order, standard string escaping).
-/

set_option maxRecDepth 100000

namespace Tell

/-- Model of `serde_json::Value`.  `num` carries the integer numbers that the
streams here use; `fnum` stands for the remaining (floating-point) numbers,
such as the `temperature` value — no claim depends on how they print. -/
inductive Json where
  | null
  | bool (b : Bool)
  | num (n : Int)
  | fnum (q : Rat)
  | str (s : String)
  | arr (elems : List Json)
  | obj (fields : List (String × Json))

/-- Lexicographic order on char lists by code point. -/
def charsLt : List Char → List Char → Bool
  | [], [] => false
  | [], _ :: _ => true
  | _ :: _, [] => false
  | a :: as, b :: bs => if a < b then true else if b < a then false else charsLt as bs

/-- Rust `String` ordering (byte-wise; code-point-wise coincides on ASCII). -/
def strLt (a b : String) : Bool := charsLt a.data b.data

/-- BTreeMap insertion: keep fields sorted by key, replace on equal key. -/
def sortedInsert (k : String) (v : Json) : List (String × Json) → List (String × Json)
  | [] => [(k, v)]
  | (k0, v0) :: rest =>
    if k = k0 then (k, v) :: rest
    else if strLt k k0 then (k, v) :: (k0, v0) :: rest
    else (k0, v0) :: sortedInsert k v rest

/-- Build an object the way `serde_json::json!` does: fields collect into a
`BTreeMap`, i.e. repeated sorted insertion. -/
def Json.mkObj (l : List (String × Json)) : Json :=
  .obj (l.foldl (fun acc p => sortedInsert p.1 p.2 acc) [])

def lookupField : List (String × Json) → String → Option Json
  | [], _ => none
  | (k, v) :: rest, key => if k = key then some v else lookupField rest key

/-- Model of `Value::get(key)`: `Map::get` on objects, `None` otherwise. -/
def Json.get : Json → String → Option Json
  | .obj fields, key => lookupField fields key
  | _, _ => none

/-- Model of `Value::as_str`. -/
def Json.asStr : Json → Option String
  | .str s => some s
  | _ => none

/-- Model of `Value::as_u64` (integer numbers only; `f64` numbers give `None`
exactly when they have no `u64` representation, which the `fnum` values used
here never need). -/
def Json.asU64 : Json → Option Nat
  | .num n => if 0 ≤ n then some n.toNat else none
  | _ => none

/-- Model of `Value::as_array`. -/
def Json.asArray : Json → Option (List Json)
  | .arr xs => some xs
  | _ => none

/-- Insertion via `Value` index assignment (`body["k"] = v`) on an object. -/
def Json.setField : Json → String → Json → Json
  | .obj fields, k, v => .obj (sortedInsert k v fields)
  | j, _, _ => j

/-- Whether a JSON object carries a given top-level field. -/
def Json.hasKey (j : Json) (key : String) : Bool :=
  match j with
  | .obj fields => fields.any (fun p => p.1 == key)
  | _ => false

def hexDigit (n : Nat) : Char :=
  if n < 10 then Char.ofNat (48 + n) else Char.ofNat (87 + n)

/-- serde_json string escaping for one character. -/
def escapeChar (c : Char) : String :=
  if c = '"' then "\\\""
  else if c = '\\' then "\\\\"
  else if c = '\n' then "\\n"
  else if c = '\r' then "\\r"
  else if c = '\t' then "\\t"
  else if c = '\x08' then "\\b"
  else if c = '\x0c' then "\\f"
  else if c.val < 32 then "\\u00" ++ String.mk [hexDigit (c.toNat / 16), hexDigit (c.toNat % 16)]
  else String.mk [c]

def escapeStr (s : String) : String :=
  s.data.foldl (fun acc c => acc ++ escapeChar c) ""

mutual

/-- Model of compact `serde_json::to_string` on a `Value`. -/
def Json.render : Json → String
  | .null => "null"
  | .bool true => "true"
  | .bool false => "false"
  | .num n => toString n
  | .fnum q => toString q.num ++ (if q.den = 1 then "" else "." ++ toString q.den)
  | .str s => "\"" ++ escapeStr s ++ "\""
  | .arr xs => "[" ++ renderElems xs ++ "]"
  | .obj fs => "\x7b" ++ renderFields fs ++ "\x7d"

def renderElems : List Json → String
  | [] => ""
  | [x] => Json.render x
  | x :: rest => Json.render x ++ "," ++ renderElems rest

def renderFields : List (String × Json) → String
  | [] => ""
  | [(k, v)] => "\"" ++ escapeStr k ++ "\":" ++ Json.render v
  | (k, v) :: rest => "\"" ++ escapeStr k ++ "\":" ++ Json.render v ++ "," ++ renderFields rest

end

def isWs (c : Char) : Bool := c = ' ' || c = '\t' || c = '\n' || c = '\r'

def skipWs : List Char → List Char
  | [] => []
  | c :: cs => if isWs c then skipWs cs else c :: cs

def isDigitCh (c : Char) : Bool := '0' ≤ c && c ≤ '9'

def digitsToNat (ds : List Char) : Nat :=
  ds.foldl (fun acc c => 10 * acc + (c.toNat - 48)) 0

/-- Decode one string-escape character (the escapes used by these streams). -/
def unescape? (e : Char) : Option Char :=
  if e = '"' then some '"'
  else if e = '\\' then some '\\'
  else if e = '/' then some '/'
  else if e = 'n' then some '\n'
  else if e = 't' then some '\t'
  else if e = 'r' then some '\r'
  else if e = 'b' then some '\x08'
  else if e = 'f' then some '\x0c'
  else none

/-- Parse the body of a JSON string after its opening quote; returns the
decoded characters and the remaining input. -/
def parseStrChars : List Char → Option (List Char × List Char)
  | [] => none
  | c :: cs =>
    if c = '"' then some ([], cs)
    else if c = '\\' then
      match cs with
      | [] => none
      | e :: cs2 =>
        match unescape? e with
        | some d => (parseStrChars cs2).map (fun p => (d :: p.1, p.2))
        | none => none
    else if c.toNat < 32 then none
    else (parseStrChars cs).map (fun p => (c :: p.1, p.2))

mutual

/-- Fuel-based recursive-descent JSON value parser (model of serde_json). -/
def parseValue : Nat → List Char → Option (Json × List Char)
  | 0, _ => none
  | fuel + 1, cs =>
    match skipWs cs with
    | [] => none
    | c :: cs' =>
      if c = 'n' then
        if cs'.take 3 = ['u', 'l', 'l'] then some (.null, cs'.drop 3) else none
      else if c = 't' then
        if cs'.take 3 = ['r', 'u', 'e'] then some (.bool true, cs'.drop 3) else none
      else if c = 'f' then
        if cs'.take 4 = ['a', 'l', 's', 'e'] then some (.bool false, cs'.drop 4) else none
      else if c = '"' then
        (parseStrChars cs').map (fun p => (.str (String.mk p.1), p.2))
      else if c = '-' then
        let ds := cs'.takeWhile isDigitCh
        if ds.isEmpty then none
        else some (.num (-(digitsToNat ds : Int)), cs'.dropWhile isDigitCh)
      else if isDigitCh c then
        let ds := (c :: cs').takeWhile isDigitCh
        some (.num (digitsToNat ds : Int), (c :: cs').dropWhile isDigitCh)
      else if c = '[' then
        match skipWs cs' with
        | ']' :: rest => some (.arr [], rest)
        | rest =>
          match parseValue fuel rest with
          | none => none
          | some (v, rest2) => parseArrMore fuel [v] rest2
      else if c = '\x7b' then
        match skipWs cs' with
        | '\x7d' :: rest => some (.obj [], rest)
        | rest => parseObjMember fuel [] rest
      else none

/-- After an array element: expect `,` plus another element, or `]`. -/
def parseArrMore : Nat → List Json → List Char → Option (Json × List Char)
  | 0, _, _ => none
  | fuel + 1, acc, cs =>
    match skipWs cs with
    | ']' :: rest => some (.arr acc.reverse, rest)
    | ',' :: rest =>
      match parseValue fuel rest with
      | none => none
      | some (v, rest2) => parseArrMore fuel (v :: acc) rest2
    | _ => none

/-- Parse one `"key": value` object member, then continue with the tail. -/
def parseObjMember : Nat → List (String × Json) → List Char → Option (Json × List Char)
  | 0, _, _ => none
  | fuel + 1, acc, cs =>
    match skipWs cs with
    | '"' :: rest =>
      match parseStrChars rest with
      | none => none
      | some (key, rest2) =>
        match skipWs rest2 with
        | ':' :: rest3 =>
          match parseValue fuel rest3 with
          | none => none
          | some (v, rest4) => parseObjMore fuel (sortedInsert (String.mk key) v acc) rest4
        | _ => none
    | _ => none

/-- After an object member: expect `,` plus another member, or the brace. -/
def parseObjMore : Nat → List (String × Json) → List Char → Option (Json × List Char)
  | 0, _, _ => none
  | fuel + 1, acc, cs =>
    match skipWs cs with
    | '\x7d' :: rest => some (.obj acc, rest)
    | ',' :: rest => parseObjMember fuel acc rest
    | _ => none

end

/-- Model of `serde_json::from_str::<Value>`: one complete JSON value, with
only trailing whitespace allowed. -/
def parseJson (s : String) : Option Json :=
  match parseValue (2 * s.data.length + 2) s.data with
  | some (v, rest) => if (skipWs rest).isEmpty then some v else none
  | none => none

/-! Model of Rust `str::lines()`:
`split_inclusive('\n')` followed by stripping the trailing `'\n'` and, when a
`'\n'` was stripped, one trailing `'\r'`. -/

/-- Model of `str::split_inclusive('\n')` on character lists. -/
def splitInclNl : List Char → List (List Char)
  | [] => []
  | c :: cs =>
    if c = '\n' then ['\n'] :: splitInclNl cs
    else
      match splitInclNl cs with
      | [] => [[c]]
      | p :: ps => (c :: p) :: ps

/-- Strip a trailing newline and, if one was there, a trailing carriage
return (the per-piece map of `str::lines()`). -/
def lineMap (l : List Char) : List Char :=
  if l.getLast? = some '\n' then
    let l' := l.dropLast
    if l'.getLast? = some '\r' then l'.dropLast else l'
  else l

/-- Model of Rust `chunk.lines()`. -/
def rustLines (s : String) : List String :=
  (splitInclNl s.data).map (fun l => String.mk (lineMap l))

/-- Whether a line begins with the SSE event marker, `line.starts_with("data: ")`. -/
def isDataLine (line : String) : Bool :=
  decide (line.data.take 6 = "data: ".data)

/-- Model of `&line[6..]` under an ASCII 6-byte marker: drop six characters. -/
def dropChars (s : String) (n : Nat) : String := String.mk (s.data.drop n)

/-- Concatenation of the per-line outputs accumulated by `result.push_str`. -/
def joinStr : List String → String
  | [] => ""
  | s :: rest => s ++ joinStr rest

/-! The Anthropic normalizer, `convert_anthropic_to_ai_sdk` (main.rs:385-427). -/

/-- Processing of one `data: ` payload by the Anthropic normalizer: the
`[DONE]` sentinel and unparsable payloads contribute nothing; a
`content_block_delta` event with string `delta.text` contributes one `0`
frame; `message_stop` and every other event type contribute nothing. -/
def processAnthropicData (dp : String) : String :=
  if dp = "[DONE]" then ""
  else
    match parseJson dp with
    | none => ""
    | some parsed =>
      match (parsed.get "type").bind Json.asStr with
      | none => ""
      | some t =>
        if t = "content_block_delta" then
          match parsed.get "delta" with
          | none => ""
          | some delta =>
            match (delta.get "text").bind Json.asStr with
            | none => ""
            | some text => "0:" ++ Json.render (.str text) ++ "\n"
        else if t = "message_stop" then ""
        else ""

/-- Contribution of one upstream line to the Anthropic normalizer's output. -/
def anthropicLineOut (line : String) : String :=
  if isDataLine line then processAnthropicData (dropChars line 6) else ""

/-- Model of `convert_anthropic_to_ai_sdk` (main.rs:385-427). -/
def convert_anthropic_to_ai_sdk (chunk : String) : String :=
  joinStr ((rustLines chunk).map anthropicLineOut)

/-! The OpenAI normalizer, `convert_openai_to_ai_sdk` (main.rs:429-540), and
the `TOOL_CALLS` accumulator table.  In the source the table is a single
process-wide `Mutex<HashMap<String, ToolCallAccumulator>>`; here its contents
are an explicit `ToolState` threaded through each invocation, listed in
registration order.  `HashMap::drain` yields its entries in an unspecified
order, so the converter is parametrized by a `drain` function; theorems
assume only that `drain st` is a permutation of `st`. -/

/-- Model of the source's `ToolCallAccumulator` struct. -/
structure ToolCallAccumulator where
  id : String
  name : String
  arguments : String
deriving DecidableEq

/-- Contents of the `TOOL_CALLS` map, in registration order. -/
abbrev ToolState := List (String × ToolCallAccumulator)

/-- Whether the table holds an accumulator under `key`. -/
def hasAccKey (st : ToolState) (key : String) : Bool :=
  st.any (fun p => p.1 == key)

/-- Model of `HashMap::insert`: replace the value under an existing key,
otherwise add a new entry (registration order: at the end). -/
def insertAcc (st : ToolState) (key : String) (acc : ToolCallAccumulator) : ToolState :=
  match st with
  | [] => [(key, acc)]
  | (k, a) :: rest =>
    if k = key then (key, acc) :: rest else (k, a) :: insertAcc rest key acc

/-- Model of the `get_mut` + `push_str` fragment append: extend the
arguments of the accumulator under `key` when present, else do nothing. -/
def appendArgs (st : ToolState) (key : String) (args : String) : ToolState :=
  match st with
  | [] => []
  | (k, a) :: rest =>
    if k = key then (k, { a with arguments := a.arguments ++ args }) :: rest
    else (k, a) :: appendArgs rest key args

/-- Payload of a finalized `9` frame: `json!(\x7btoolCallId, toolName, args\x7d)`
where `args` is the parsed accumulated arguments, or `\x7b\x7d` when they do not
parse (main.rs:456-469). -/
def toolFramePayload (tc : ToolCallAccumulator) : Json :=
  Json.mkObj [("toolCallId", .str tc.id), ("toolName", .str tc.name),
    ("args", (parseJson tc.arguments).getD (Json.obj []))]

/-- The `9` frame emitted for one drained accumulator. -/
def toolFrame (tc : ToolCallAccumulator) : String :=
  "9:" ++ Json.render (toolFramePayload tc) ++ "\n"

/-- Output of draining the accumulator table in the given entry order. -/
def drainOut (entries : ToolState) : String :=
  joinStr (entries.map (fun p => toolFrame p.2))

/-- Processing of one `tool_calls` array entry (main.rs:495-530): an entry
with a string `id` and a `function` object (re-)initializes the accumulator
for its index; an entry without an `id` but with string `function.arguments`
appends to the accumulator for its index when one exists. -/
def processToolCallEntry (st : ToolState) (tc : Json) : ToolState :=
  let index := ((tc.get "index").bind Json.asU64).getD 0
  let key := "tc_" ++ toString index
  match (tc.get "id").bind Json.asStr with
  | some id =>
    match tc.get "function" with
    | some function =>
      let name := ((function.get "name").bind Json.asStr).getD ""
      let arguments := ((function.get "arguments").bind Json.asStr).getD ""
      insertAcc st key ⟨id, name, arguments⟩
    | none => st
  | none =>
    match tc.get "function" with
    | some function =>
      match (function.get "arguments").bind Json.asStr with
      | some arguments => appendArgs st key arguments
      | none => st
    | none => st

/-- Fold of `processToolCallEntry` over the `tool_calls` array. -/
def processToolCallList (st : ToolState) (entries : List Json) : ToolState :=
  entries.foldl processToolCallEntry st

/-- Processing of one parsed (non-sentinel) OpenAI chunk line
(main.rs:475-534): a string `choices[0].delta.content` yields a `0` frame;
a `choices[0].delta.tool_calls` array updates the accumulator table. -/
def processOpenAIParsed (st : ToolState) (parsed : Json) : String × ToolState :=
  match (parsed.get "choices").bind Json.asArray with
  | none => ("", st)
  | some choices =>
    match choices.head? with
    | none => ("", st)
    | some choice =>
      match choice.get "delta" with
      | none => ("", st)
      | some delta =>
        let textOut :=
          match (delta.get "content").bind Json.asStr with
          | some content => "0:" ++ Json.render (.str content) ++ "\n"
          | none => ""
        let st' :=
          match (delta.get "tool_calls").bind Json.asArray with
          | some tcs => processToolCallList st tcs
          | none => st
        (textOut, st')

/-- Processing of one `data: ` payload by the OpenAI normalizer: the
`[DONE]` sentinel drains the whole accumulator table (in the `drain` order)
into `9` frames and leaves it empty; any other payload is parsed as JSON and
handed to `processOpenAIParsed`, unparsable payloads being ignored. -/
def processOpenAIData (drainFn : ToolState → ToolState) (st : ToolState)
    (dp : String) : String × ToolState :=
  if dp = "[DONE]" then (drainOut (drainFn st), [])
  else
    match parseJson dp with
    | none => ("", st)
    | some parsed => processOpenAIParsed st parsed

/-- One step of the per-line loop of `convert_openai_to_ai_sdk`. -/
def openaiLineStep (drainFn : ToolState → ToolState)
    (acc : String × ToolState) (line : String) : String × ToolState :=
  if isDataLine line then
    let r := processOpenAIData drainFn acc.2 (dropChars line 6)
    (acc.1 ++ r.1, r.2)
  else acc

/-- Model of `convert_openai_to_ai_sdk` (main.rs:444-540), with the
`TOOL_CALLS` table passed in and returned explicitly and the `HashMap::drain`
iteration order abstracted as `drainFn`. -/
def convert_openai_to_ai_sdk (drainFn : ToolState → ToolState)
    (st : ToolState) (chunk : String) : String × ToolState :=
  (rustLines chunk).foldl (openaiLineStep drainFn) ("", st)

/-- Whether some line of a chunk is the `data: [DONE]` sentinel line. -/
def hasDoneLine (chunk : String) : Bool :=
  (rustLines chunk).any (fun l => isDataLine l && dropChars l 6 == "[DONE]")

/-- Whether a chunk ends on a line boundary (its last character is `'\n'`). -/
def endsWithNl (s : String) : Bool := s.data.getLast? == some '\n'

/-- Character-list prefix test (model of Rust `str::starts_with`). -/
def charsStarts : List Char → List Char → Bool
  | _, [] => true
  | [], _ :: _ => false
  | c :: cs, p :: ps => if c = p then charsStarts cs ps else false

/-- Whether `s` starts with `pat` (model of Rust `str::starts_with`). -/
def strStarts (s pat : String) : Bool := charsStarts s.data pat.data

/-- Model of Rust `str::to_lowercase` (per-character; Rust's full Unicode
lowering and this map agree on ASCII model names). -/
def toLowerStr (s : String) : String := String.mk (s.data.map Char.toLower)

/-! Provider selection and request construction (main.rs:69-174, 272-327). -/

/-- Model of the source's `ChatMessage` struct. -/
structure ChatMessage where
  role : String
  content : String

/-- Model of the source's `ChatRequest` struct.  `temperature` is an `f32`
in the source; the only operation applied to it is the comparison
`!= 0.0`, which `Rat` models exactly on every value JSON input can carry. -/
structure ChatRequest where
  messages : List ChatMessage
  model : String
  temperature : Rat
  maxSteps : Option Nat

inductive Provider where
  | anthropic
  | openai
deriving DecidableEq

/-- Model of `sdk_chat`'s `is_claude` test (main.rs:167):
`request.model.to_lowercase().starts_with("claude")`. -/
def isClaude (model : String) : Bool := strStarts (toLowerStr model) "claude"

/-- Provider dispatch of `sdk_chat` (main.rs:169-173). -/
def selectProvider (model : String) : Provider :=
  if isClaude model then .anthropic else .openai

/-- Model of the source's `ToolInputSchema` struct. -/
structure ToolInputSchema where
  schemaType : String
  properties : List (String × Json)
  required : List String

/-- Model of the source's `Tool` struct. -/
structure Tool where
  name : String
  description : String
  inputSchema : ToolInputSchema

/-- Model of `create_tools` (main.rs:109-155). -/
def createTools : List Tool :=
  [{ name := "executeSQL",
     description := "Run a SQL query for immediate results without adding it to the transformation pipeline. Use for exploratory queries, data inspection, or when users want to see results right away.",
     inputSchema :=
       { schemaType := "object",
         properties := [("sql", Json.mkObj [("type", .str "string"),
           ("description", .str "The complete DuckDB-compatible SQL query. CRITICAL: Use proper SQL syntax only - no English phrases! Use: = (not \x27equals\x27), < (not \x27less than\x27), > (not \x27greater than\x27), BETWEEN x AND y (not \x27IS BETWEEN\x27 or \x27is around\x27), LIKE \x27%pattern%\x27 (not \x27contains\x27), IS NULL/IS NOT NULL only. Example: WHERE age BETWEEN 20 AND 30 (correct), NOT WHERE age IS BETWEEN 20 AND 30 (wrong)")])],
         required := ["sql"] } },
   { name := "addTransformation",
     description := "Add a SQL transformation step to the data pipeline. Use when users want to filter, transform, or process data as part of their workflow.",
     inputSchema :=
       { schemaType := "object",
         properties := [("sql", Json.mkObj [("type", .str "string"),
           ("description", .str "The SQL query for the transformation. Use \x27previous_step\x27 to reference the output of the last transformation, or reference other transformation outputs by their alias names.")]),
           ("outputAlias", Json.mkObj [("type", .str "string"),
           ("description", .str "A meaningful name for this transformation step using underscores (e.g., \x27filtered_data\x27, \x27high_value_orders\x27, \x27aggregated_results\x27)")])],
         required := ["sql", "outputAlias"] } }]

/-- JSON form of one chat message as sent upstream. -/
def chatMessageJson (m : ChatMessage) : Json :=
  Json.mkObj [("role", .str m.role), ("content", .str m.content)]

/-- JSON form of a `ToolInputSchema` (serde `Serialize`, `type` renamed). -/
def toolInputSchemaJson (s : ToolInputSchema) : Json :=
  Json.mkObj [("type", .str s.schemaType),
    ("properties", Json.mkObj s.properties),
    ("required", .arr (s.required.map Json.str))]

/-- The OpenAI function-calling shape of one tool (main.rs:313-322). -/
def openaiToolJson (t : Tool) : Json :=
  Json.mkObj [("type", .str "function"),
    ("function", Json.mkObj [("name", .str t.name),
      ("description", .str t.description),
      ("parameters", toolInputSchemaJson t.inputSchema)])]

/-- Model of the request body built by `handle_openai_request`
(main.rs:280-327): base `\x7bmodel, messages, stream\x7d`; `temperature` added only
for non-`o1`/`o3`/`gpt-5` models with non-zero temperature; `tools` added
only when the catalog is non-empty and the model is not `o1`/`o3`. -/
def openaiRequestBody (req : ChatRequest) : Json :=
  let messages := req.messages.map chatMessageJson
  let body := Json.mkObj [("model", .str req.model), ("messages", .arr messages),
    ("stream", .bool true)]
  let isO1orO3 := strStarts req.model "o1" || strStarts req.model "o3"
  let isGpt5 := strStarts req.model "gpt-5"
  let body :=
    if !isO1orO3 && !isGpt5 && req.temperature != 0 then
      body.setField "temperature" (.fnum req.temperature)
    else body
  if !createTools.isEmpty && !isO1orO3 then
    body.setField "tools" (.arr (createTools.map openaiToolJson))
  else body

/-! Concrete stream vectors used by the claims. -/

/-- First OpenAI chunk of the tool-call vector: initializes index 0 with id
`call_1`, name `executeSQL` and the argument fragment `\x7b"sql"`. -/
def oaiChunk1 : String :=
  "data: \x7b\"choices\":[\x7b\"delta\":\x7b\"tool_calls\":[\x7b\"index\":0,\"id\":\"call_1\",\"type\":\"function\",\"function\":\x7b\"name\":\"executeSQL\",\"arguments\":\"\x7b\\\"sql\\\"\"\x7d\x7d]\x7d\x7d]\x7d\n"

/-- Second OpenAI chunk: only the argument fragment `:"SELECT 1"\x7d` for index 0. -/
def oaiChunk2 : String :=
  "data: \x7b\"choices\":[\x7b\"delta\":\x7b\"tool_calls\":[\x7b\"index\":0,\"function\":\x7b\"arguments\":\":\\\"SELECT 1\\\"\x7d\"\x7d\x7d]\x7d\x7d]\x7d\n"

/-- The stream-completion sentinel chunk. -/
def doneChunk : String := "data: [DONE]\n"

/-- The expected single finalized tool-call frame of the vector (BTreeMap
order puts `args` before `toolCallId` before `toolName`). -/
def expectedToolFrame : String :=
  "9:\x7b\"args\":\x7b\"sql\":\"SELECT 1\"\x7d,\"toolCallId\":\"call_1\",\"toolName\":\"executeSQL\"\x7d\n"

/-- Stream A's initializing chunk in the two-concurrent-streams scenario:
a complete tool call `call_A` with arguments `\x7b"sql":"A"\x7d` at index 0. -/
def streamAChunk : String :=
  "data: \x7b\"choices\":[\x7b\"delta\":\x7b\"tool_calls\":[\x7b\"index\":0,\"id\":\"call_A\",\"type\":\"function\",\"function\":\x7b\"name\":\"executeSQL\",\"arguments\":\"\x7b\\\"sql\\\":\\\"A\\\"\x7d\"\x7d\x7d]\x7d\x7d]\x7d\n"

/-- A second initializing chunk registering `call_2` (`addTransformation`)
under index 1, for the multi-tool-call ordering scenario. -/
def oaiChunkIdx1 : String :=
  "data: \x7b\"choices\":[\x7b\"delta\":\x7b\"tool_calls\":[\x7b\"index\":1,\"id\":\"call_2\",\"type\":\"function\",\"function\":\x7b\"name\":\"addTransformation\",\"arguments\":\"\x7b\x7d\"\x7d\x7d]\x7d\x7d]\x7d\n"

/-- The Anthropic vector: two `content_block_delta` events (`"Hello"`,
`" world"`) followed by `message_stop`, in full SSE framing. -/
def anthropicChunk : String :=
  "event: content_block_delta\ndata: \x7b\"type\":\"content_block_delta\",\"index\":0,\"delta\":\x7b\"type\":\"text_delta\",\"text\":\"Hello\"\x7d\x7d\n\nevent: content_block_delta\ndata: \x7b\"type\":\"content_block_delta\",\"index\":0,\"delta\":\x7b\"type\":\"text_delta\",\"text\":\" world\"\x7d\x7d\n\nevent: message_stop\ndata: \x7b\"type\":\"message_stop\"\x7d\n\n"

/-- A complete Anthropic text-delta line, used whole. -/
def wholeLineChunk : String :=
  "data: \x7b\"type\":\"content_block_delta\",\"delta\":\x7b\"text\":\"Hi\"\x7d\x7d\n"

/-- The first part of `wholeLineChunk` split in the middle of the line. -/
def splitPartA : String := "data: \x7b\"ty"

/-- The second part of `wholeLineChunk` split in the middle of the line. -/
def splitPartB : String := "pe\":\"content_block_delta\",\"delta\":\x7b\"text\":\"Hi\"\x7d\x7d\n"

/-- A fragment-only tool-call entry (no `id`) for a given index, as the
normalizer sees it after JSON parsing. -/
def fragmentEntry (index : Nat) (args : String) : Json :=
  Json.mkObj [("index", .num (index : Int)),
    ("function", Json.mkObj [("arguments", .str args)])]

/-- A full parsed chunk object whose only content is one fragment-only
tool-call entry. -/
def fragmentParsed (index : Nat) (args : String) : Json :=
  Json.mkObj [("choices", .arr [Json.mkObj [("delta",
    Json.mkObj [("tool_calls", .arr [fragmentEntry index args])])]])]

/-! Helper lemmas. -/

theorem joinStr_append (xs ys : List String) :
    joinStr (xs ++ ys) = joinStr xs ++ joinStr ys := by
  induction xs with
  | nil => simp [joinStr, String.empty_append]
  | cons s rest ih => simp [joinStr, ih, String.append_assoc]

theorem splitInclNl_ne_nil (cs : List Char) (h : cs ≠ []) : splitInclNl cs ≠ [] := by
  match cs with
  | c :: cs' =>
    unfold splitInclNl
    by_cases hc : c = '\n'
    · simp [hc]
    · simp only [hc, if_false]
      cases hs : splitInclNl cs' <;> simp

theorem splitInclNl_cons_nl (cs : List Char) :
    splitInclNl ('\n' :: cs) = ['\n'] :: splitInclNl cs := by
  simp [splitInclNl]

theorem splitInclNl_cons_other (c : Char) (cs : List Char) (hc : c ≠ '\n') :
    splitInclNl (c :: cs) =
      (match splitInclNl cs with
       | [] => [[c]]
       | p :: ps => (c :: p) :: ps) := by
  simp [splitInclNl, hc]

theorem splitInclNl_append (a b : List Char) (h : a.getLast? = some '\n') :
    splitInclNl (a ++ b) = splitInclNl a ++ splitInclNl b := by
  induction a with
  | nil => simp at h
  | cons c a' ih =>
    match a' with
    | [] =>
      simp at h
      subst h
      rw [List.cons_append, List.nil_append, splitInclNl_cons_nl]
      simp [splitInclNl]
    | c2 :: a'' =>
      have h' : (c2 :: a'').getLast? = some '\n' := by
        rwa [List.getLast?_cons_cons] at h
      have ih' := ih h'
      by_cases hc : c = '\n'
      · subst hc
        rw [List.cons_append, splitInclNl_cons_nl, splitInclNl_cons_nl, ih',
          List.cons_append]
      · have hne : splitInclNl (c2 :: a'') ≠ [] := splitInclNl_ne_nil _ (by simp)
        match hsp : splitInclNl (c2 :: a'') with
        | [] => exact absurd hsp hne
        | p :: ps =>
          rw [show (c :: c2 :: a'') ++ b = c :: ((c2 :: a'') ++ b) from rfl,
            splitInclNl_cons_other c ((c2 :: a'') ++ b) hc,
            splitInclNl_cons_other c (c2 :: a'') hc, ih', hsp]
          simp

theorem rustLines_append (a b : String) (h : endsWithNl a = true) :
    rustLines (a ++ b) = rustLines a ++ rustLines b := by
  have hd : (a ++ b).data = a.data ++ b.data := String.data_append a b
  have hl : a.data.getLast? = some '\n' := by
    simpa [endsWithNl] using h
  unfold rustLines
  rw [hd, splitInclNl_append a.data b.data hl, List.map_append]

theorem openaiFold_out (drainFn : ToolState → ToolState) (ls : List String)
    (o : String) (st : ToolState) :
    ls.foldl (openaiLineStep drainFn) (o, st) =
      (o ++ (ls.foldl (openaiLineStep drainFn) ("", st)).1,
       (ls.foldl (openaiLineStep drainFn) ("", st)).2) := by
  induction ls generalizing o st with
  | nil => simp [String.append_empty]
  | cons l rest ih =>
    simp only [List.foldl_cons]
    by_cases hd : isDataLine l = true
    · simp only [openaiLineStep, hd, if_true]
      rw [ih (o ++ _) _, ih ("" ++ _) _]
      simp [String.empty_append, String.append_assoc]
    · simp only [openaiLineStep, Bool.not_eq_true] at hd
      simp only [openaiLineStep, hd]
      exact ih o st

/-- Within one invocation, processing a chunk that ends on a line boundary
and then a second chunk is the same as processing their concatenation:
the outputs concatenate and the accumulator state threads through. -/
theorem convert_openai_append (drainFn : ToolState → ToolState) (st : ToolState)
    (a b : String) (h : endsWithNl a = true) :
    convert_openai_to_ai_sdk drainFn st (a ++ b) =
      ((convert_openai_to_ai_sdk drainFn st a).1 ++
        (convert_openai_to_ai_sdk drainFn (convert_openai_to_ai_sdk drainFn st a).2 b).1,
       (convert_openai_to_ai_sdk drainFn (convert_openai_to_ai_sdk drainFn st a).2 b).2) := by
  unfold convert_openai_to_ai_sdk
  rw [rustLines_append a b h, List.foldl_append]
  have h1 : (rustLines a).foldl (openaiLineStep drainFn) ("", st) =
      (((rustLines a).foldl (openaiLineStep drainFn) ("", st)).1,
       ((rustLines a).foldl (openaiLineStep drainFn) ("", st)).2) := rfl
  rw [h1]
  rw [openaiFold_out drainFn (rustLines b)]

theorem convert_anthropic_append (a b : String) (h : endsWithNl a = true) :
    convert_anthropic_to_ai_sdk (a ++ b) =
      convert_anthropic_to_ai_sdk a ++ convert_anthropic_to_ai_sdk b := by
  unfold convert_anthropic_to_ai_sdk
  rw [rustLines_append a b h, List.map_append, joinStr_append]

theorem hasAccKey_insertAcc (st : ToolState) (k : String) (a : ToolCallAccumulator)
    (key : String) (h : hasAccKey st key = true) :
    hasAccKey (insertAcc st k a) key = true := by
  induction st with
  | nil => simp [hasAccKey] at h
  | cons p rest ih =>
    obtain ⟨k0, a0⟩ := p
    by_cases hk : k0 = k
    · subst hk
      simp only [insertAcc, eq_self_iff_true, if_true, hasAccKey, List.any_cons,
        Bool.or_eq_true] at h ⊢
      exact h
    · simp only [insertAcc, if_neg hk, hasAccKey, List.any_cons, Bool.or_eq_true] at h ⊢
      rcases h with h | h
      · exact Or.inl h
      · refine Or.inr ?_
        have := ih (by simpa [hasAccKey] using h)
        simpa [hasAccKey] using this

theorem hasAccKey_appendArgs (st : ToolState) (k args key : String) :
    hasAccKey (appendArgs st k args) key = hasAccKey st key := by
  induction st with
  | nil => simp [appendArgs]
  | cons p rest ih =>
    obtain ⟨k0, a0⟩ := p
    by_cases hk : k0 = k
    · simp [appendArgs, hk, hasAccKey]
    · simp only [appendArgs, if_neg hk]
      simp only [hasAccKey, List.any_cons] at ih ⊢
      rw [ih]

theorem hasAccKey_entry (st : ToolState) (tc : Json) (key : String)
    (h : hasAccKey st key = true) :
    hasAccKey (processToolCallEntry st tc) key = true := by
  unfold processToolCallEntry
  split
  · split
    · exact hasAccKey_insertAcc st _ _ key h
    · exact h
  · split
    · split
      · rw [hasAccKey_appendArgs]; exact h
      · exact h
    · exact h

theorem hasAccKey_entryList (st : ToolState) (entries : List Json) (key : String)
    (h : hasAccKey st key = true) :
    hasAccKey (processToolCallList st entries) key = true := by
  induction entries generalizing st with
  | nil => exact h
  | cons tc rest ih =>
    exact ih (processToolCallEntry st tc) (hasAccKey_entry st tc key h)

theorem hasAccKey_parsed (st : ToolState) (parsed : Json) (key : String)
    (h : hasAccKey st key = true) :
    hasAccKey (processOpenAIParsed st parsed).2 key = true := by
  unfold processOpenAIParsed
  split
  · exact h
  · split
    · exact h
    · split
      · exact h
      · simp only
        split
        · exact hasAccKey_entryList st _ key h
        · exact h

theorem hasAccKey_fold (drainFn : ToolState → ToolState) (ls : List String)
    (o : String) (st : ToolState) (key : String)
    (hnd : ∀ l ∈ ls, (isDataLine l && (dropChars l 6 == "[DONE]")) = false)
    (h : hasAccKey st key = true) :
    hasAccKey (ls.foldl (openaiLineStep drainFn) (o, st)).2 key = true := by
  induction ls generalizing o st with
  | nil => exact h
  | cons l rest ih =>
    simp only [List.foldl_cons]
    have hl := hnd l (by simp)
    have hrest : ∀ l' ∈ rest, (isDataLine l' && (dropChars l' 6 == "[DONE]")) = false :=
      fun l' hm => hnd l' (by simp [hm])
    by_cases hd : isDataLine l = true
    · simp only [hd, Bool.true_and] at hl
      have hne : ¬(dropChars l 6 = "[DONE]") := by
        intro he
        rw [he] at hl
        simp at hl
      simp only [openaiLineStep, hd, if_true]
      unfold processOpenAIData
      rw [if_neg hne]
      apply ih _ _ hrest
      split
      · exact h
      · exact hasAccKey_parsed st _ key h
    · simp only [Bool.not_eq_true] at hd
      have hstep : openaiLineStep drainFn (o, st) l = (o, st) := by
        simp [openaiLineStep, hd]
      rw [hstep]
      exact ih o st hrest h

theorem appendArgs_of_not_found (st : ToolState) (k args : String)
    (h : hasAccKey st k = false) : appendArgs st k args = st := by
  induction st with
  | nil => rfl
  | cons p rest ih =>
    obtain ⟨k0, a0⟩ := p
    simp only [hasAccKey, List.any_cons, Bool.or_eq_false_iff] at h
    have hk : k0 ≠ k := by
      intro he
      rw [he] at h
      simp at h
    simp only [appendArgs, if_neg hk]
    rw [ih (by simpa [hasAccKey] using h.2)]

/-! Claim theorems. -/

/-- C1: for the OpenAI normalizer, the stream whose first data chunk
initializes tool-call index 0 with id `call_1`, name `executeSQL` and
fragment `\x7b"sql"`, whose second chunk appends the fragment `:"SELECT 1"\x7d`
for index 0, and which then ends with the `[DONE]` sentinel, emits no frame
on the first two chunks and exactly one `9` frame on the sentinel, with
payload `toolCallId:"call_1"`, `toolName:"executeSQL"`,
`args:\x7b"sql":"SELECT 1"\x7d` — for every admissible `HashMap::drain` order
(starting, as for a single stream, from an empty accumulator table). -/
theorem c1_openai_tool_call_stream (drainFn : ToolState → ToolState)
    (hperm : ∀ s, (drainFn s).Perm s) :
    (convert_openai_to_ai_sdk drainFn [] oaiChunk1).1 = "" ∧
    (convert_openai_to_ai_sdk drainFn
      (convert_openai_to_ai_sdk drainFn [] oaiChunk1).2 oaiChunk2).1 = "" ∧
    (convert_openai_to_ai_sdk drainFn
      (convert_openai_to_ai_sdk drainFn
        (convert_openai_to_ai_sdk drainFn [] oaiChunk1).2 oaiChunk2).2 doneChunk).1 =
      expectedToolFrame := by
  refine ⟨rfl, rfl, ?_⟩
  have hs : (convert_openai_to_ai_sdk drainFn
      (convert_openai_to_ai_sdk drainFn [] oaiChunk1).2 oaiChunk2).2 =
      [("tc_0", ⟨"call_1", "executeSQL", "\x7b\"sql\":\"SELECT 1\"\x7d"⟩)] := rfl
  rw [hs]
  have hd : drainFn [("tc_0", ⟨"call_1", "executeSQL", "\x7b\"sql\":\"SELECT 1\"\x7d"⟩)] =
      [("tc_0", ⟨"call_1", "executeSQL", "\x7b\"sql\":\"SELECT 1\"\x7d"⟩)] :=
    List.perm_singleton.mp (hperm _)
  calc (convert_openai_to_ai_sdk drainFn
      [("tc_0", ⟨"call_1", "executeSQL", "\x7b\"sql\":\"SELECT 1\"\x7d"⟩)] doneChunk).1
      = "" ++ drainOut (drainFn
          [("tc_0", ⟨"call_1", "executeSQL", "\x7b\"sql\":\"SELECT 1\"\x7d"⟩)]) := rfl
    _ = expectedToolFrame := by rw [hd]; rfl

/-- Closed instance of `c1_openai_tool_call_stream` at the identity drain
order. -/
theorem c1_witness :
    (convert_openai_to_ai_sdk id [] oaiChunk1).1 = "" ∧
    (convert_openai_to_ai_sdk id
      (convert_openai_to_ai_sdk id [] oaiChunk1).2 oaiChunk2).1 = "" ∧
    (convert_openai_to_ai_sdk id
      (convert_openai_to_ai_sdk id
        (convert_openai_to_ai_sdk id [] oaiChunk1).2 oaiChunk2).2 doneChunk).1 =
      expectedToolFrame :=
  c1_openai_tool_call_stream id (fun s => List.Perm.refl s)

/-- C2 demonstration (the claim is a spec requirement the code violates):
because `TOOL_CALLS` is one process-wide table, after stream A's invocation
registers `call_A` at index 0, a `[DONE]` chunk arriving on a *different*
stream B drains and emits stream A's tool call, and stream A's own `[DONE]`
afterwards emits nothing — each stream observes the other's accumulators. -/
theorem c2_cross_stream_drain :
    (convert_openai_to_ai_sdk id
      (convert_openai_to_ai_sdk id [] streamAChunk).2 doneChunk).1 =
      "9:\x7b\"args\":\x7b\"sql\":\"A\"\x7d,\"toolCallId\":\"call_A\",\"toolName\":\"executeSQL\"\x7d\n" ∧
    (convert_openai_to_ai_sdk id
      (convert_openai_to_ai_sdk id
        (convert_openai_to_ai_sdk id [] streamAChunk).2 doneChunk).2 doneChunk).1 = "" :=
  ⟨rfl, rfl⟩

/-- C3: the accumulator table is process-wide mutable state threaded through
every invocation of `convert_openai_to_ai_sdk`: (a) an invocation on a chunk
with no `data: [DONE]` line keeps every registered key present for later
invocations; (b) a `[DONE]` chunk drains the table completely, emitting one
`9` frame per accumulator currently in it — whatever invocation (of
whatever stream) registered it — in the `HashMap::drain` order, a
permutation of the registered entries. -/
theorem c3_process_wide_table (drainFn : ToolState → ToolState)
    (hperm : ∀ s, (drainFn s).Perm s) :
    (∀ (st : ToolState) (chunk key : String), hasDoneLine chunk = false →
      hasAccKey st key = true →
      hasAccKey (convert_openai_to_ai_sdk drainFn st chunk).2 key = true) ∧
    (∀ st : ToolState,
      convert_openai_to_ai_sdk drainFn st doneChunk = (drainOut (drainFn st), []) ∧
      ((drainFn st).map (fun p => toolFrame p.2)).Perm
        (st.map (fun p => toolFrame p.2))) := by
  constructor
  · intro st chunk key hnd h
    unfold convert_openai_to_ai_sdk
    apply hasAccKey_fold drainFn (rustLines chunk) "" st key _ h
    intro l hl
    by_contra hco
    simp only [Bool.not_eq_false] at hco
    have : hasDoneLine chunk = true := by
      unfold hasDoneLine
      rw [List.any_eq_true]
      exact ⟨l, hl, hco⟩
    rw [this] at hnd
    simp at hnd
  · intro st
    refine ⟨?_, (hperm st).map _⟩
    rw [show convert_openai_to_ai_sdk drainFn st doneChunk =
      ("" ++ drainOut (drainFn st), []) from rfl, String.empty_append]

/-- Closed instance of `c3_process_wide_table`: a text-only chunk preserves
the registered key `tc_0`, and the sentinel chunk drains the table. -/
theorem c3_witness :
    hasAccKey (convert_openai_to_ai_sdk id
      [("tc_0", ⟨"call_1", "executeSQL", "\x7b\x7d"⟩)]
      "data: \x7b\"choices\":[\x7b\"delta\":\x7b\"content\":\"hi\"\x7d\x7d]\x7d\n").2 "tc_0" = true ∧
    convert_openai_to_ai_sdk id [("tc_0", ⟨"call_1", "executeSQL", "\x7b\x7d"⟩)] doneChunk =
      (drainOut (id [("tc_0", ⟨"call_1", "executeSQL", "\x7b\x7d"⟩)]), []) :=
  ⟨(c3_process_wide_table id (fun s => List.Perm.refl s)).1
      [("tc_0", ⟨"call_1", "executeSQL", "\x7b\x7d"⟩)] _ "tc_0" rfl rfl,
   ((c3_process_wide_table id (fun s => List.Perm.refl s)).2
      [("tc_0", ⟨"call_1", "executeSQL", "\x7b\x7d"⟩)]).1⟩

/-- C4 counterexample: after registering tool calls under indices 0 and 1,
reversal is an admissible `HashMap::drain` iteration order (a permutation of
the table), yet under it the `[DONE]` finalization emits the `9` frames in
the opposite of registration order — the source's `HashMap` guarantees no
particular drain order, so the claimed registration order does not hold. -/
theorem c4_counterexample :
    ((convert_openai_to_ai_sdk id
        (convert_openai_to_ai_sdk id [] oaiChunk1).2 oaiChunkIdx1).2.reverse).Perm
      (convert_openai_to_ai_sdk id
        (convert_openai_to_ai_sdk id [] oaiChunk1).2 oaiChunkIdx1).2 ∧
    (convert_openai_to_ai_sdk List.reverse
      (convert_openai_to_ai_sdk id
        (convert_openai_to_ai_sdk id [] oaiChunk1).2 oaiChunkIdx1).2 doneChunk).1 ≠
    (convert_openai_to_ai_sdk id
      (convert_openai_to_ai_sdk id
        (convert_openai_to_ai_sdk id [] oaiChunk1).2 oaiChunkIdx1).2 doneChunk).1 :=
  ⟨List.reverse_perm _, by decide⟩

/-- C4 amended: on the `[DONE]` sentinel one `9` frame is emitted per
registered accumulator — the emitted frame list is a permutation of the
frames taken in registration order — but in the unspecified `HashMap::drain`
iteration order, not necessarily registration order. -/
theorem c4_amended_done_frames (drainFn : ToolState → ToolState)
    (hperm : ∀ s, (drainFn s).Perm s) (st : ToolState) :
    (convert_openai_to_ai_sdk drainFn st doneChunk).1 =
      joinStr ((drainFn st).map (fun p => toolFrame p.2)) ∧
    ((drainFn st).map (fun p => toolFrame p.2)).Perm
      (st.map (fun p => toolFrame p.2)) := by
  refine ⟨?_, (hperm st).map _⟩
  rw [show (convert_openai_to_ai_sdk drainFn st doneChunk).1 =
    "" ++ drainOut (drainFn st) from rfl, String.empty_append, drainOut]

/-- Closed instance of `c4_amended_done_frames` at the identity drain order
on a two-accumulator table. -/
theorem c4_amended_witness :
    (convert_openai_to_ai_sdk id
      [("tc_0", ⟨"call_1", "executeSQL", "\x7b\x7d"⟩),
       ("tc_1", ⟨"call_2", "addTransformation", "\x7b\x7d"⟩)] doneChunk).1 =
      joinStr ((id (α := ToolState)
        [("tc_0", ⟨"call_1", "executeSQL", "\x7b\x7d"⟩),
         ("tc_1", ⟨"call_2", "addTransformation", "\x7b\x7d"⟩)]).map
          (fun p => toolFrame p.2)) :=
  (c4_amended_done_frames id (fun s => List.Perm.refl s)
    [("tc_0", ⟨"call_1", "executeSQL", "\x7b\x7d"⟩),
     ("tc_1", ⟨"call_2", "addTransformation", "\x7b\x7d"⟩)]).1

/-- C5 counterexample: the normalizers process each chunk's lines with no
carry-over buffer, so a chunk boundary in the middle of a line changes the
output: the whole `content_block_delta` line yields `0:"Hi"\n`, while the
same bytes split mid-line yield nothing. -/
theorem c5_counterexample :
    splitPartA ++ splitPartB = wholeLineChunk ∧
    convert_anthropic_to_ai_sdk wholeLineChunk ≠
      convert_anthropic_to_ai_sdk splitPartA ++ convert_anthropic_to_ai_sdk splitPartB :=
  ⟨rfl, by decide⟩

/-- C5 amended: each normalizer's output is invariant under splitting or
merging chunk boundaries *at line boundaries*: when the first chunk ends in
a newline, processing the concatenation equals processing the parts in
sequence (outputs concatenating, and, for the OpenAI normalizer, the
accumulator state threading through).  Mid-line splits are not invariant
(see the counterexample). -/
theorem c5_amended_line_boundary (a b : String) (h : endsWithNl a = true) :
    convert_anthropic_to_ai_sdk (a ++ b) =
      convert_anthropic_to_ai_sdk a ++ convert_anthropic_to_ai_sdk b ∧
    (∀ (drainFn : ToolState → ToolState) (st : ToolState),
      convert_openai_to_ai_sdk drainFn st (a ++ b) =
        ((convert_openai_to_ai_sdk drainFn st a).1 ++
          (convert_openai_to_ai_sdk drainFn
            (convert_openai_to_ai_sdk drainFn st a).2 b).1,
         (convert_openai_to_ai_sdk drainFn
           (convert_openai_to_ai_sdk drainFn st a).2 b).2)) :=
  ⟨convert_anthropic_append a b h,
   fun drainFn st => convert_openai_append drainFn st a b h⟩

/-- Closed instance of `c5_amended_line_boundary`: repeating a complete
Anthropic delta line, and a sentinel chunk followed by a second one. -/
theorem c5_amended_witness :
    convert_anthropic_to_ai_sdk (wholeLineChunk ++ wholeLineChunk) =
      convert_anthropic_to_ai_sdk wholeLineChunk ++
        convert_anthropic_to_ai_sdk wholeLineChunk ∧
    convert_openai_to_ai_sdk id [] (doneChunk ++ doneChunk) =
      ((convert_openai_to_ai_sdk id [] doneChunk).1 ++
        (convert_openai_to_ai_sdk id
          (convert_openai_to_ai_sdk id [] doneChunk).2 doneChunk).1,
       (convert_openai_to_ai_sdk id
         (convert_openai_to_ai_sdk id [] doneChunk).2 doneChunk).2) :=
  ⟨(c5_amended_line_boundary wholeLineChunk wholeLineChunk rfl).1,
   (c5_amended_line_boundary doneChunk doneChunk rfl).2 id []⟩

/-- C6: when the accumulated argument text of a registered tool call is not
valid JSON at `[DONE]` finalization time, the emitted `9` frame carries
`args:\x7b\x7d` (the payload below is in BTreeMap key order, so `args` prints
first); finalization still empties the table and aborts nothing — the
converter is total and no error value exists to propagate. -/
theorem c6_malformed_args_empty_object (drainFn : ToolState → ToolState)
    (hperm : ∀ s, (drainFn s).Perm s) (key : String) (tc : ToolCallAccumulator)
    (hbad : parseJson tc.arguments = none) :
    (convert_openai_to_ai_sdk drainFn [(key, tc)] doneChunk).1 =
      "9:" ++ Json.render (Json.obj [("args", Json.obj []),
        ("toolCallId", .str tc.id), ("toolName", .str tc.name)]) ++ "\n" ∧
    (convert_openai_to_ai_sdk drainFn [(key, tc)] doneChunk).2 = [] := by
  have hd : drainFn [(key, tc)] = [(key, tc)] := List.perm_singleton.mp (hperm _)
  refine ⟨?_, rfl⟩
  rw [show (convert_openai_to_ai_sdk drainFn [(key, tc)] doneChunk).1 =
    "" ++ drainOut (drainFn [(key, tc)]) from rfl, hd, String.empty_append,
    show drainOut [(key, tc)] = toolFrame tc ++ "" from rfl, String.append_empty,
    show toolFrame tc = "9:" ++ Json.render (Json.obj
      [("args", (parseJson tc.arguments).getD (Json.obj [])),
       ("toolCallId", .str tc.id), ("toolName", .str tc.name)]) ++ "\n" from rfl,
    hbad]
  rfl

/-- Closed instance of `c6_malformed_args_empty_object` on the truncated
argument text `\x7b"sql"`, which serde_json rejects. -/
theorem c6_witness :
    (convert_openai_to_ai_sdk id
      [("tc_0", ⟨"call_1", "executeSQL", "\x7b\"sql\""⟩)] doneChunk).1 =
      "9:" ++ Json.render (Json.obj [("args", Json.obj []),
        ("toolCallId", .str "call_1"), ("toolName", .str "executeSQL")]) ++ "\n" ∧
    (convert_openai_to_ai_sdk id
      [("tc_0", ⟨"call_1", "executeSQL", "\x7b\"sql\""⟩)] doneChunk).2 = [] :=
  c6_malformed_args_empty_object id (fun s => List.Perm.refl s)
    "tc_0" ⟨"call_1", "executeSQL", "\x7b\"sql\""⟩ rfl

/-- C7: a `tool_calls` entry carrying `function.arguments` but no `id`, for
an index with no registered accumulator, changes nothing: no accumulator is
created, no frame is emitted, and (the converter being total) no error is
raised — the fragment is silently dropped. -/
theorem c7_unknown_index_fragment_dropped (st : ToolState) (index : Nat)
    (args : String) (h : hasAccKey st ("tc_" ++ toString index) = false) :
    processOpenAIParsed st (fragmentParsed index args) = ("", st) := by
  have hidx : ((fragmentEntry index args).get "index").bind Json.asU64 = some index := by
    rw [show ((fragmentEntry index args).get "index").bind Json.asU64 =
      (if (0 : Int) ≤ (index : Int) then some ((index : Int)).toNat else none) from rfl,
      if_pos (Int.ofNat_nonneg index)]
    simp
  have h3 : processToolCallEntry st (fragmentEntry index args) =
      appendArgs st ("tc_" ++ toString index) args := by
    simp only [processToolCallEntry, hidx, Option.getD_some]
    rfl
  rw [show processOpenAIParsed st (fragmentParsed index args) =
    ("", processToolCallEntry st (fragmentEntry index args)) from rfl, h3,
    appendArgs_of_not_found st _ args h]

/-- Closed instance of `c7_unknown_index_fragment_dropped` on an empty
table at index 0. -/
theorem c7_witness :
    processOpenAIParsed [] (fragmentParsed 0 ":\"SELECT 1\"\x7d") = ("", []) :=
  c7_unknown_index_fragment_dropped [] 0 ":\"SELECT 1\"\x7d" rfl

/-- C8: the Anthropic stream with `content_block_delta` texts `"Hello"` and
`" world"` followed by `message_stop` produces exactly
`0:"Hello"\n0:" world"\n` — one `0` frame per delta in arrival order and no
frame for `message_stop` — and a data payload of any other event type
produces no output (and, the converter being total, no error). -/
theorem c8_anthropic_text_vector :
    convert_anthropic_to_ai_sdk anthropicChunk = "0:\"Hello\"\n0:\" world\"\n" ∧
    (∀ (dp : String) (parsed : Json) (t : String), parseJson dp = some parsed →
      (parsed.get "type").bind Json.asStr = some t →
      t ≠ "content_block_delta" → t ≠ "message_stop" →
      processAnthropicData dp = "") := by
  refine ⟨rfl, ?_⟩
  intro dp parsed t hp ht hne hns
  unfold processAnthropicData
  split
  · rfl
  · rw [hp]
    simp only [ht, if_neg hne, if_neg hns]

/-- Closed instance of `c8_anthropic_text_vector` on a `message_start`
event payload. -/
theorem c8_witness :
    processAnthropicData "\x7b\"type\":\"message_start\"\x7d" = "" :=
  c8_anthropic_text_vector.2 "\x7b\"type\":\"message_start\"\x7d"
    (Json.obj [("type", Json.str "message_start")]) "message_start"
    rfl rfl (by decide) (by decide)

theorem any_key_sortedInsert (fs : List (String × Json)) (k : String) (v : Json)
    (key : String) :
    ((sortedInsert k v fs).any fun p => p.1 == key) =
      ((k == key) || fs.any fun p => p.1 == key) := by
  induction fs with
  | nil => simp [sortedInsert]
  | cons p rest ih =>
    obtain ⟨k0, v0⟩ := p
    by_cases hk : k = k0
    · subst hk
      simp only [sortedInsert, eq_self_iff_true, if_true, List.any_cons]
      cases (k == key) <;> simp
    · by_cases hlt : strLt k k0 = true
      · simp [sortedInsert, hk, hlt, List.any_cons]
      · simp only [sortedInsert, if_neg hk, if_neg hlt, List.any_cons, ih]
        cases (k == key) <;> cases (k0 == key) <;> simp

theorem any_key_mkObjAux (l : List (String × Json)) (acc : List (String × Json))
    (key : String) :
    ((l.foldl (fun acc p => sortedInsert p.1 p.2 acc) acc).any fun p => p.1 == key) =
      ((acc.any fun p => p.1 == key) || l.any fun p => p.1 == key) := by
  induction l generalizing acc with
  | nil => simp
  | cons p rest ih =>
    obtain ⟨k, v⟩ := p
    simp only [List.foldl_cons, List.any_cons]
    rw [ih, any_key_sortedInsert]
    cases (k == key) <;> cases (acc.any fun p => p.1 == key) <;> simp

theorem hasKey_mkObj (l : List (String × Json)) (key : String) :
    (Json.mkObj l).hasKey key = l.any fun p => p.1 == key := by
  simp only [Json.mkObj, Json.hasKey]
  rw [any_key_mkObjAux]
  simp

theorem hasKey_setField (fs : List (String × Json)) (k : String) (v : Json)
    (key : String) :
    (Json.setField (.obj fs) k v).hasKey key =
      ((k == key) || (Json.obj fs).hasKey key) := by
  simp only [Json.setField, Json.hasKey]
  exact any_key_sortedInsert fs k v key

theorem createTools_not_empty : createTools.isEmpty = false := rfl

/-- C9: the request body built by `handle_openai_request` for a model whose
name starts with `o1` or `o3` carries neither a `temperature` nor a `tools`
field, whatever the rest of the request; for a model whose name starts with
`gpt-5` it never carries a `temperature` field. -/
theorem c9_model_capability_gating (req : ChatRequest) :
    ((strStarts req.model "o1" = true ∨ strStarts req.model "o3" = true) →
      (openaiRequestBody req).hasKey "temperature" = false ∧
      (openaiRequestBody req).hasKey "tools" = false) ∧
    (strStarts req.model "gpt-5" = true →
      (openaiRequestBody req).hasKey "temperature" = false) := by
  have hbase : ∀ key : String, (Json.mkObj [("model", Json.str req.model),
      ("messages", Json.arr (req.messages.map chatMessageJson)),
      ("stream", Json.bool true)]).hasKey key =
      (("model" == key) || (("messages" == key) || ("stream" == key))) := by
    intro key
    rw [hasKey_mkObj]
    simp
  constructor
  · intro h
    have ho : (strStarts req.model "o1" || strStarts req.model "o3") = true := by
      rcases h with h | h <;> simp [h]
    have hbody : openaiRequestBody req = Json.mkObj [("model", Json.str req.model),
        ("messages", Json.arr (req.messages.map chatMessageJson)),
        ("stream", Json.bool true)] := by
      simp [openaiRequestBody, ho]
    rw [hbody]
    exact ⟨by rw [hbase]; decide, by rw [hbase]; decide⟩
  · intro hg
    by_cases ho : (strStarts req.model "o1" || strStarts req.model "o3") = true
    · have hbody : openaiRequestBody req = Json.mkObj [("model", Json.str req.model),
          ("messages", Json.arr (req.messages.map chatMessageJson)),
          ("stream", Json.bool true)] := by
        simp [openaiRequestBody, ho]
      rw [hbody, hbase]
      decide
    · have ho' : (strStarts req.model "o1" || strStarts req.model "o3") = false := by
        simpa using ho
      have hbody : openaiRequestBody req = Json.setField
          (Json.mkObj [("model", Json.str req.model),
            ("messages", Json.arr (req.messages.map chatMessageJson)),
            ("stream", Json.bool true)]) "tools"
          (Json.arr (createTools.map openaiToolJson)) := by
        simp [openaiRequestBody, ho', hg, createTools_not_empty]
      rw [hbody, show (Json.mkObj [("model", Json.str req.model),
        ("messages", Json.arr (req.messages.map chatMessageJson)),
        ("stream", Json.bool true)]) = Json.obj [("messages",
          Json.arr (req.messages.map chatMessageJson)),
          ("model", Json.str req.model), ("stream", Json.bool true)] from rfl,
        hasKey_setField]
      simp only [Json.hasKey, List.any_cons, List.any_nil]
      decide

/-- Closed instance of `c9_model_capability_gating` at an `o1` model, an
`o3` model and a `gpt-5` model. -/
theorem c9_witness :
    (openaiRequestBody ⟨[⟨"user", "hi"⟩], "o1-mini", 1/5, none⟩).hasKey
      "temperature" = false ∧
    (openaiRequestBody ⟨[⟨"user", "hi"⟩], "o1-mini", 1/5, none⟩).hasKey
      "tools" = false ∧
    (openaiRequestBody ⟨[⟨"user", "hi"⟩], "o3", 1/5, none⟩).hasKey
      "tools" = false ∧
    (openaiRequestBody ⟨[⟨"user", "hi"⟩], "gpt-5", 1/5, none⟩).hasKey
      "temperature" = false :=
  ⟨((c9_model_capability_gating ⟨[⟨"user", "hi"⟩], "o1-mini", 1/5, none⟩).1
      (Or.inl (by decide))).1,
   ((c9_model_capability_gating ⟨[⟨"user", "hi"⟩], "o1-mini", 1/5, none⟩).1
      (Or.inl (by decide))).2,
   ((c9_model_capability_gating ⟨[⟨"user", "hi"⟩], "o3", 1/5, none⟩).1
      (Or.inr (by decide))).2,
   (c9_model_capability_gating ⟨[⟨"user", "hi"⟩], "gpt-5", 1/5, none⟩).2
      (by decide)⟩

/-- C10: `sdk_chat` selects the provider by a case-insensitive prefix test
on `model`: a model whose lowercase form starts with `claude` is handled by
the Anthropic adapter, every other model by the OpenAI adapter. -/
theorem c10_provider_dispatch :
    (∀ m : String, isClaude m = true → selectProvider m = Provider.anthropic) ∧
    (∀ m : String, isClaude m = false → selectProvider m = Provider.openai) := by
  constructor <;> intro m h <;> simp [selectProvider, h]

/-- Closed instance of `c10_provider_dispatch` on mixed-case Claude models
and a GPT model. -/
theorem c10_witness :
    selectProvider "Claude-3-5-sonnet-20241022" = Provider.anthropic ∧
    selectProvider "CLAUDE-INSTANT" = Provider.anthropic ∧
    selectProvider "gpt-4o" = Provider.openai :=
  ⟨c10_provider_dispatch.1 _ (by decide), c10_provider_dispatch.1 _ (by decide),
   c10_provider_dispatch.2 _ (by decide)⟩

end Tell
